import Mathlib

/-!
Verification development for the `sdm-ui` repository: a shallow embedding of
the error classifier (`internal/sdm`), the BoltDB-backed resource cache
(`internal/storage`), and the retry/re-authentication controller plus the
dmenu connect flow (`internal/app`), together with theorems settling the
frozen specification claims.

Conventions of the embedding:
* Go strings are Lean `String`s; byte-level operations are carried out on
  `List Char` (UTF-8 byte order coincides with code-point order, so
  lexicographic comparison on `Char` matches Go's byte-wise comparison).
* Go `int64` timestamps are `Int` (overflow is modelled explicitly where the
  source can overflow, see `wrap64`).
* Go `error` values are `Option GoErr` (`none` = nil error); `fmt.Errorf`
  with `%w` becomes `GoErr.wrapped`.
* Side-effecting calls (subprocess invocations, keyring, notifications) are
  threaded through an explicit `AppState`, with the environment's responses
  (password lookup, login outcome, connect outcome) supplied by `RetryEnv` /
  `ConnEnv` records, mirroring the single-threaded control flow of the Go
  code.
-/

namespace SdmUI

/-! ## Go string primitives -/

/-- Byte-wise prefix test on character lists (Go `strings.HasPrefix` on the
underlying bytes; UTF-8 order agrees with code-point order). -/
def listIsPrefix : List Char → List Char → Bool
  | [], _ => true
  | _ :: _, [] => false
  | a :: as, b :: bs => a = b && listIsPrefix as bs

/-- Does `hay` contain `pat` as a contiguous substring (Go `strings.Contains`)? -/
def listContains (hay pat : List Char) : Bool :=
  listIsPrefix pat hay ||
    match hay with
    | [] => false
    | _ :: t => listContains t pat

/-- Go `strings.Contains(s, pat)`. -/
def containsGo (s pat : String) : Bool :=
  listContains s.toList pat.toList

/-- Go `strings.HasPrefix(s, pre)`. -/
def hasPrefixGo (s pre : String) : Bool :=
  listIsPrefix pre.toList s.toList

/-! ## Error classifier (`internal/sdm`, final version)

Translated from `parseSdmError` and the `SDMErrorCode` constants in
`src/unnamed/part_012`. -/

/-- `sdm.SDMErrorCode` (src/unnamed/part_012, lines 14-21). -/
inductive SDMErrorCode
  | Unauthorized
  | InvalidCredentials
  | ResourceNotFound
  | ConnectionFailed
  | PermissionDenied
  | Unknown
  deriving DecidableEq, Repr

/-- `sdm.SDMError` (src/unnamed/part_012, lines 42-46): code, captured output
text, and the `Error()` text of the original execution error (`none` when the
original error is nil). -/
structure SDMError where
  code : SDMErrorCode
  msg : String
  errText : Option String
  deriving DecidableEq, Repr

/-- A Go `error` value as the app layer sees it: an `sdm.SDMError`, a plain
`errors.New`/leaf error, or a `fmt.Errorf("...: %w", inner)` wrapping. -/
inductive GoErr
  | sdmE (e : SDMError)
  | simple (msg : String)
  | wrapped (pre : String) (inner : GoErr)
  deriving DecidableEq, Repr

/-- `errors.As(err, &sdmErr)`: unwrap the `%w` chain looking for an
`sdm.SDMError`. -/
def asSDMError : GoErr → Option SDMError
  | .sdmE e => some e
  | .simple _ => none
  | .wrapped _ inner => asSDMError inner

/-- The ordered pattern table of `parseSdmError`
(src/unnamed/part_012, lines 73-87). -/
def errorMatchers : List (String × SDMErrorCode) :=
  [("You are not authenticated", .Unauthorized),
   ("Authentication required", .Unauthorized),
   ("Cannot find datasource named", .ResourceNotFound),
   ("Resource not found", .ResourceNotFound),
   ("access denied", .InvalidCredentials),
   ("Invalid credentials", .InvalidCredentials),
   ("Permission denied", .PermissionDenied),
   ("Connection refused", .ConnectionFailed),
   ("Could not connect", .ConnectionFailed),
   ("Timed out", .ConnectionFailed)]

/-- The `for _, matcher := range errorMatchers` loop: first matching pattern
wins. -/
def matchErrorCode (output : String) : List (String × SDMErrorCode) → Option SDMErrorCode
  | [] => none
  | m :: rest => if containsGo output m.1 then some m.2 else matchErrorCode output rest

/-- `sdm.parseSdmError` (src/unnamed/part_012, lines 62-106): nil errors pass
through; otherwise the first matching pattern's code is attached, defaulting
to `Unknown`, and the captured output is retained as `Msg`. -/
def parseSdmError (output : String) (err : Option String) : Option GoErr :=
  match err with
  | none => none
  | some e =>
    match matchErrorCode output errorMatchers with
    | some c => some (.sdmE ⟨c, output, some e⟩)
    | none => some (.sdmE ⟨.Unknown, output, some e⟩)


/-! ## Resource cache (`internal/storage`, final version; src/unnamed/part_001)

The cache is a BoltDB file: a map from bucket names to buckets, each bucket a
map from record name (the key, `ds.Key()`) to the gob-encoded record. Buckets
iterate in byte-sorted key order; the embedding keeps buckets as association
lists sorted by key and models gob encode/decode as the identity (decoding a
value produced by `Encode` always succeeds and round-trips). -/

/-- `storage.DataSource`. The descriptive fields are those of the struct in
src/unnamed/part_001 (lines 405-412); the `LRU` last-used Unix-timestamp
field (int64, default 0) is the one read and written by `StoreServers`,
`UpdateLastUsed` (src/unnamed/part_001, lines 152, 274) and
`GetSortedDataSources` (src/internal/app/dmenu.go, line 494); its struct
declaration is not among the provided sources, so the field itself is
modelled from the spec (§3: `lastUsedAt`, integer seconds, defaults to
zero). `Type` is a reserved word in Lean, hence `Type'`. -/
structure DataSource where
  Name : String
  Status : String
  Address : String
  Type' : String
  Tags : String
  WebURL : String
  LRU : Int
  deriving DecidableEq, Repr

/-- A bolt bucket holding datasources keyed by `ds.Key() = []byte(ds.Name)`,
kept in byte-sorted key order as bolt does. -/
abbrev Bucket := List (String × DataSource)

/-- The bolt database: named buckets (`tx.ForEach` iterates them). -/
abbrev DB := List (String × Bucket)

/-- `bucket.Get(k)` (nil result = `none`). -/
def bucketGet (b : Bucket) (k : String) : Option DataSource :=
  match b with
  | [] => none
  | (k', v) :: t => if k' = k then some v else bucketGet t k

/-- `bucket.Put(k, v)`: replace an existing key in place, otherwise insert in
sorted key position. -/
def bucketPut (b : Bucket) (k : String) (v : DataSource) : Bucket :=
  match b with
  | [] => [(k, v)]
  | (k', v') :: t =>
    if k = k' then (k, v) :: t
    else if k < k' then (k, v) :: (k', v') :: t
    else (k', v') :: bucketPut t k v

/-- `tx.Bucket(name)` (nil = `none`). -/
def dbGetBucket (db : DB) (name : String) : Option Bucket :=
  match db with
  | [] => none
  | (n, b) :: t => if n = name then some b else dbGetBucket t name

/-- Replace the contents of an existing named bucket (the effect of a write
transaction mutating that bucket). -/
def dbPutBucket (db : DB) (name : String) (b : Bucket) : DB :=
  match db with
  | [] => []
  | (n, b') :: t => if n = name then (n, b) :: t else (n, b') :: dbPutBucket t name b

/-- `tx.DeleteBucket(name)`. -/
def deleteBucket (db : DB) (name : String) : DB :=
  match db with
  | [] => []
  | (n, b) :: t => if n = name then t else (n, b) :: deleteBucket t name

/-- `storage.currentDBVersion` (src/unnamed/part_001, line 18). -/
def currentDBVersion : Nat := 2

/-- `storage.buildBucketKey` (src/unnamed/part_001, lines 117-119):
`fmt.Sprintf("%s:%s:v%d", account, "datasource", version)`. -/
def buildBucketKey (account : String) (version : Nat) : String :=
  account ++ ":" ++ "datasource" ++ ":v" ++ toString version

/-- The per-record body of the `StoreServers` loop (src/unnamed/part_001,
lines 141-175): fetch any existing record under the same key, preserve its
`LRU` value if present (decode of a stored record succeeds in the model),
then put the encoded record. -/
def storeOne (b : Bucket) (ds : DataSource) : Bucket :=
  let ds' :=
    match bucketGet b ds.Name with
    | some existing => { ds with LRU := existing.LRU }
    | none => ds
  bucketPut b ds.Name ds'

/-- The full `StoreServers` write transaction over a bucket. -/
def storeList (b : Bucket) (dss : List DataSource) : Bucket :=
  dss.foldl storeOne b

/-- `storage.StoreServers` (src/unnamed/part_001, lines 122-184): an empty
record list returns success before any transaction is opened; otherwise the
account's current-version bucket is required and each record is stored with
its previous `LRU` preserved. -/
def StoreServers (account : String) (db : DB) (dss : List DataSource) :
    Option GoErr × DB :=
  if dss.length = 0 then (none, db)
  else
    let bucketKey := buildBucketKey account currentDBVersion
    match dbGetBucket db bucketKey with
    | none => (some (.simple "bucket not found"), db)
    | some b => (none, dbPutBucket db bucketKey (storeList b dss))

/-- `storage.GetDatasource` (src/unnamed/part_001, lines 226-265). -/
def GetDatasource (account : String) (db : DB) (name : String) :
    Except GoErr DataSource :=
  if name = "" then .error (.simple "datasource name cannot be empty")
  else
    match dbGetBucket db (buildBucketKey account currentDBVersion) with
    | none => .error (.simple "bucket not found")
    | some b =>
      match bucketGet b name with
      | none => .error (.simple "datasource not found")
      | some ds => .ok ds

/-- `storage.UpdateLastUsed` (src/unnamed/part_001, lines 268-300): stamp the
record with the current Unix time and put it. -/
def UpdateLastUsed (account : String) (now : Int) (db : DB) (ds : DataSource) :
    Option GoErr × DB :=
  if ds.Name = "" then (some (.simple "datasource name cannot be empty"), db)
  else
    let bucketKey := buildBucketKey account currentDBVersion
    match dbGetBucket db bucketKey with
    | none => (some (.simple "bucket not found"), db)
    | some b => (none, dbPutBucket db bucketKey (bucketPut b ds.Name { ds with LRU := now }))

/-- `storage.Wipe` (src/unnamed/part_001, lines 368-396): first pass collects
every bucket whose name has the account as a string prefix, second pass
deletes them. -/
def Wipe (account : String) (db : DB) : DB :=
  let bucketsToDelete := (db.filter (fun e => hasPrefixGo e.1 account)).map (·.1)
  bucketsToDelete.foldl deleteBucket db

/-- Record lookup through the account's current-version bucket. -/
def dsLookup (account : String) (db : DB) (n : String) : Option DataSource :=
  (dbGetBucket db (buildBucketKey account currentDBVersion)).bind (fun b => bucketGet b n)

/-! ## App layer (`internal/app`, final versions)

The Go closures passed to `RetryCommand` perform subprocess calls and cache
writes; the embedding threads an explicit `AppState` through them and takes
the environment's responses (password lookup, login result, per-call connect
and status results) from `RetryEnv`/`ConnEnv`. Each external invocation bumps
a counter in the state, so "invoked exactly once/twice" is a statement about
counters. -/

/-- Observable state of one top-level command run: the cache plus counters of
external invocations and the desktop notifications issued so far. -/
structure AppState where
  db : DB
  execCalls : Nat
  loginCalls : Nat
  deleteSecretCalls : Nat
  connectCalls : Nat
  statusCalls : Nat
  statusBuf : List DataSource
  notifications : List (String × String)
  deriving DecidableEq, Repr

/-- Environment responses used by `RetryCommand`: the account, the outcome of
`retrievePassword` (keyring falling back to an interactive prompt — external
collaborators), and the outcome of `sdmWrapper.LoginWithContext` for a given
password. -/
structure RetryEnv where
  account : String
  passwordResult : Except GoErr String
  loginResult : String → Option GoErr

/-- `notify.Notify("SDM CLI", title, msg, "")`. -/
def notifyS (s : AppState) (title msg : String) : AppState :=
  { s with notifications := s.notifications ++ [(title, msg)] }

/-- `p.keyring.DeleteSecret(p.account)`. -/
def deleteSecretS (s : AppState) : AppState :=
  { s with deleteSecretCalls := s.deleteSecretCalls + 1 }

/-- `p.sdmWrapper.LoginWithContext(ctx, p.account, password)`. -/
def loginS (env : RetryEnv) (password : String) (s : AppState) :
    AppState × Option GoErr :=
  ({ s with loginCalls := s.loginCalls + 1 }, env.loginResult password)

/-- `SDMErrorCode.String()` (src/unnamed/part_012, lines 24-39). -/
def codeString : SDMErrorCode → String
  | .Unauthorized => "Unauthorized"
  | .InvalidCredentials => "InvalidCredentials"
  | .ResourceNotFound => "ResourceNotFound"
  | .ConnectionFailed => "ConnectionFailed"
  | .PermissionDenied => "PermissionDenied"
  | .Unknown => "Unknown"

/-- `SDMError.Error()` (src/unnamed/part_012, lines 49-54). -/
def sdmErrString (e : SDMError) : String :=
  match e.errText with
  | some t => codeString e.code ++ ": " ++ e.msg ++ " (" ++ t ++ ")"
  | none => codeString e.code ++ ": " ++ e.msg

/-- `err.Error()` on an app-layer error value. -/
def errString : GoErr → String
  | .sdmE e => sdmErrString e
  | .simple m => m
  | .wrapped pre inner => pre ++ ": " ++ errString inner

/-- `App.handleUnauthorized` (src/unnamed/part_000, lines 228-250): notify,
obtain a password, log in (deleting the stored secret and failing terminally
if login fails), then run the wrapped command once more and return its result
as-is. -/
def handleUnauthorized (env : RetryEnv)
    (command : AppState → AppState × Option GoErr) (s : AppState) :
    AppState × Option GoErr :=
  let s := notifyS s "🔐 Authenticating..." ""
  match env.passwordResult with
  | .error e =>
    (notifyS s "🔐 Authentication error" (errString e),
     some (.wrapped "failed to retrieve password" e))
  | .ok password =>
    match loginS env password s with
    | (s, some e) =>
      (notifyS (deleteSecretS s) "🔐 Authentication error" (errString e),
       some (.wrapped "login failed" e))
    | (s, none) => command s

/-- `App.handleInvalidCredentials` (src/unnamed/part_000, lines 253-257):
notify, delete the stored secret, return a wrapped terminal error. -/
def handleInvalidCredentials (e : SDMError) (s : AppState) :
    AppState × Option GoErr :=
  let s := notifyS s "🔐 Authentication error" "Invalid credentials"
  (deleteSecretS s, some (.wrapped "invalid credentials" (.sdmE e)))

/-- `App.RetryCommand` (src/unnamed/part_000, lines 201-225). The
`ResourceNotFound` branch returns `fmt.Errorf("%w: %v", ErrResourceNotFound,
sdmErr)`, i.e. an error wrapping the `ErrResourceNotFound` sentinel whose text
starts "resource not found: "; it is rendered here as a `wrapped` value with
that prefix. -/
def RetryCommand (env : RetryEnv)
    (exec : AppState → AppState × Option GoErr) (s : AppState) :
    AppState × Option GoErr :=
  match exec s with
  | (s, none) => (s, none)
  | (s, some err) =>
    match asSDMError err with
    | none =>
      (notifyS s "❗Unexpected error" (errString err),
       some (.wrapped "unexpected error" err))
    | some sdmErr =>
      match sdmErr.code with
      | .Unauthorized => handleUnauthorized env exec s
      | .InvalidCredentials => handleInvalidCredentials sdmErr s
      | .ResourceNotFound =>
        (notifyS s "🔐 Resource not found" (sdmErrString sdmErr),
         some (.wrapped "resource not found" (.sdmE sdmErr)))
      | _ =>
        (notifyS s "🔐 Error" (sdmErrString sdmErr),
         some (.wrapped "command error" (.sdmE sdmErr)))

/-! ### Connect flow (`App.handleSelectedEntry`, src/internal/app/dmenu.go) -/

/-- `unicode.IsSpace` for the code points Go treats as white space
(the Unicode White_Space property). -/
def isSpaceGo (c : Char) : Bool :=
  c = '\t' || c = '\n' || c.toNat = 11 || c.toNat = 12 || c = '\r' || c = ' ' ||
  c.toNat = 0x85 || c.toNat = 0xA0 || c.toNat = 0x1680 ||
  (0x2000 ≤ c.toNat && c.toNat ≤ 0x200A) ||
  c.toNat = 0x2028 || c.toNat = 0x2029 || c.toNat = 0x202F ||
  c.toNat = 0x205F || c.toNat = 0x3000

/-- Accumulator pass of `strings.Fields`: split around runs of white space. -/
def fieldsAux : List Char → List Char → List String
  | [], acc => if acc.isEmpty then [] else [String.mk acc.reverse]
  | c :: rest, acc =>
    if isSpaceGo c then
      (if acc.isEmpty then [] else [String.mk acc.reverse]) ++ fieldsAux rest []
    else fieldsAux rest (c :: acc)

/-- Go `strings.Fields`. -/
def fieldsGo (s : String) : List String := fieldsAux s.toList []

/-- Environment responses for the connect flow: the current time stamped by
`UpdateLastUsed`, and the per-call outcomes of `sdmWrapper.Connect` and
`sdmWrapper.Status` (indexed by how many calls happened before). -/
structure ConnEnv where
  retry : RetryEnv
  now : Int
  connectResult : Nat → Option GoErr
  statusResult : Nat → Option GoErr
  statusRecords : Nat → List DataSource

/-- `p.sdmWrapper.Connect(name)`. -/
def sdmConnect (env : ConnEnv) (_name : String) (s : AppState) :
    AppState × Option GoErr :=
  ({ s with connectCalls := s.connectCalls + 1 }, env.connectResult s.connectCalls)

/-- The closure handed to `RetryCommand` by `handleSelectedEntry`
(src/internal/app/dmenu.go, lines 167-178): update the last-used timestamp
(failures are only logged), then connect. -/
def connectClosure (env : ConnEnv) (ds : DataSource) (s : AppState) :
    AppState × Option GoErr :=
  sdmConnect env ds.Name
    { s with db := (UpdateLastUsed env.retry.account env.now s.db ds).2 }

/-- `p.sdmWrapper.Status(buffer)`: the captured output, already parsed, lands
in `statusBuf` (the buffer is reset on each call). -/
def sdmStatus (env : ConnEnv) (s : AppState) : AppState × Option GoErr :=
  ({ s with statusCalls := s.statusCalls + 1,
            statusBuf := env.statusRecords s.statusCalls },
   env.statusResult s.statusCalls)

/-- Modelled from the spec: `App.Sync` itself is absent from the provided
sources (only its callers are). Per §4.3 and the predecessor implementations
(`Program.Sync`, src/unnamed/part_003): run the status listing through the
retry controller; on success parse the captured output and store the records
for the current account (the store's return value is not propagated), on
failure propagate the error. -/
def Sync (env : ConnEnv) (s : AppState) : AppState × Option GoErr :=
  match RetryCommand env.retry (fun t => sdmStatus env t) s with
  | (s, some e) => (s, some e)
  | (s, none) =>
    ({ s with db := (StoreServers env.retry.account s.db s.statusBuf).2 }, none)

/-- `notifyDataSourceConnected` (src/internal/app/dmenu.go, lines 204-242);
the browser/clipboard side effects are external, the desktop notification is
recorded. -/
def notifyDataSourceConnected (ds : DataSource) (s : AppState) : AppState :=
  notifyS s "🔌 Data Source Connected" (ds.Name ++ "\n📋 <b>" ++ ds.Address ++ "</b>")

/-- `App.handleSelectedEntry` (src/internal/app/dmenu.go, lines 129-201):
parse the selection, look the record up (reporting "Resource not found" and
returning nil on any failure), run update-timestamp+connect through
`RetryCommand`, and on success notify and re-sync (sync failures are only
logged). -/
def handleSelectedEntry (env : ConnEnv) (selectedEntry : String) (s : AppState) :
    AppState × Option GoErr :=
  if (fieldsGo selectedEntry).length < 2 then (notifyS s "🔐 Resource not found" "", none)
  else
    if (fieldsGo selectedEntry).headD "" = "" then
      (notifyS s "🔐 Resource not found" "", none)
    else
      match GetDatasource env.retry.account s.db ((fieldsGo selectedEntry).headD "") with
      | .error _ => (notifyS s "🔐 Resource not found" "", none)
      | .ok ds =>
        match RetryCommand env.retry (connectClosure env ds) s with
        | (s, some e) => (s, some e)
        | (s, none) =>
          match Sync env (notifyDataSourceConnected ds s) with
          | (s, _) => (s, none)

/-! ### Blacklist filtering (`App.applyBlacklist`, src/internal/app/dmenu.go,
lines 425-461, final version) -/

/-- The host regular-expression engine, `regexp.MatchString(pattern, name)`:
returns the matched flag and the compile error if any (external collaborator;
Go's engine returns `(false, err)` when the pattern does not compile). -/
def Engine := String → String → Bool × Option String

/-- The inner `for _, regex := range p.blacklistPatterns` loop: break on the
first pattern whose `MatchString` reports a match (a reported error is only
logged). -/
def blacklistedGo (engine : Engine) (name : String) : List String → Bool
  | [] => false
  | p :: rest => if (engine p name).1 then true else blacklistedGo engine name rest

/-- `App.applyBlacklist`: with no patterns the list is returned as-is;
otherwise survivors are appended to a fresh list in their original order. -/
def applyBlacklist (engine : Engine) (patterns : List String)
    (dss : List DataSource) : List DataSource :=
  if patterns.isEmpty then dss
  else dss.foldl
    (fun acc ds => if blacklistedGo engine ds.Name patterns then acc else acc ++ [ds]) []

/-! ### Recency sort (`App.GetSortedDataSources`, src/internal/app/dmenu.go,
lines 463-499, final version)

The sort call is `slices.SortFunc(dataSources, func(a, b storage.DataSource)
int { return int(b.LRU - a.LRU) })`. `slices.SortFunc` is Go standard library
code, external to this repository; its documented contract is that it sorts
ascending as determined by the comparator and that the sort "is not
guaranteed to be stable" (the stable variant `slices.SortStableFunc` is not
the one used). It is therefore modelled relationally: any comparator-sorted
permutation of the input is an admissible output, with no constraint on the
relative order of comparator-equal elements. -/

/-- Wrap-around of 64-bit two's-complement `int64`/`int` arithmetic. -/
def wrap64 (x : Int) : Int := (x + 2 ^ 63) % 2 ^ 64 - 2 ^ 63

/-- The comparator closure `int(b.LRU - a.LRU)` (src/internal/app/dmenu.go,
lines 493-495): `int64` subtraction wraps on overflow, and `int` is 64 bits
wide on the supported platforms. -/
def cmpGo (a b : DataSource) : Int := wrap64 (b.LRU - a.LRU)

/-- Adjacent-pairs sortedness as determined by a comparator
(`slices.IsSortedFunc`): every adjacent pair satisfies `cmp ≤ 0`. -/
def sortedByCmp (cmp : DataSource → DataSource → Int) : List DataSource → Bool
  | [] => true
  | [_] => true
  | a :: b :: t => decide (cmp a b ≤ 0) && sortedByCmp cmp (b :: t)

/-- The documented postcondition of `slices.SortFunc`: the output is a
permutation of the input, sorted as determined by the comparator. Stability
is deliberately absent — the documentation states the sort is not guaranteed
to be stable. -/
def sortFuncPost (cmp : DataSource → DataSource → Int)
    (input output : List DataSource) : Prop :=
  output.Perm input ∧ sortedByCmp cmp output = true

/-- The tie-handling property asserted by the claim: records with equal
`lastUsedAt` keep their relative input order (for each timestamp value, the
subsequence with that value is unchanged). -/
def tiesKeepOrder (input output : List DataSource) : Prop :=
  ∀ v : Int, output.filter (fun ds => decide (ds.LRU = v)) =
    input.filter (fun ds => decide (ds.LRU = v))

/-- Descending order of the `lastUsedAt` timestamps (adjacent pairs). -/
def descByLRU : List DataSource → Bool
  | [] => true
  | [_] => true
  | a :: b :: t => decide (b.LRU ≤ a.LRU) && descByLRU (b :: t)

/-- The relation between the retrieved cached records and the list produced
by `GetSortedDataSources`: blacklist filtering (a function) followed by the
`slices.SortFunc` call (the relational contract above). -/
def getSortedRel (engine : Engine) (patterns : List String)
    (cached out : List DataSource) : Prop :=
  sortFuncPost cmpGo (applyBlacklist engine patterns cached) out

/-! ### Concrete fixtures used by witnesses and counterexamples -/

/-- Record with `lastUsedAt = 0`. -/
def ds0 : DataSource := ⟨"x0", "", "", "", "", "", 0⟩

/-- Record with `lastUsedAt = 50`. -/
def ds50 : DataSource := ⟨"x50", "", "", "", "", "", 50⟩

/-- Record with `lastUsedAt = 20`. -/
def ds20 : DataSource := ⟨"x20", "", "", "", "", "", 20⟩

/-- Two records tied on `lastUsedAt = 0`, cache iteration order "a" then "b". -/
def dsA : DataSource := ⟨"a", "", "", "", "", "", 0⟩

/-- See `dsA`. -/
def dsB : DataSource := ⟨"b", "", "", "", "", "", 0⟩

/-- A record whose name contains "prod". -/
def dsProd : DataSource := ⟨"db-prod-1", "", "", "", "", "", 0⟩

/-- A record whose name does not contain "prod". -/
def dsDev : DataSource := ⟨"db-dev", "", "", "", "", "", 0⟩

/-- A concrete host-engine model: the pattern ".*prod.*" matches names
containing "prod" (RE2 semantics for that pattern); every other pattern fed
to it here is the non-compiling "[invalid", yielding `(false, error)`. -/
def engineProd : Engine := fun p n =>
  if p = ".*prod.*" then (containsGo n "prod", none)
  else (false, some "error parsing regexp")

/-- A cached record "foo" last used at time 5. -/
def dsFoo : DataSource := ⟨"foo", "connected", "addr", "postgres", "", "", 5⟩

/-- A cache for account "a" holding only `dsFoo`. -/
def dbFoo : DB := [("a:datasource:v2", [("foo", dsFoo)])]

/-- Initial app state over `dbFoo`. -/
def sFoo : AppState := ⟨dbFoo, 0, 0, 0, 0, 0, [], []⟩

/-- A connect-flow environment (account "a", time 100) whose external connect
always fails with an `Unknown`-classified error. -/
def envConnFail : ConnEnv :=
  ⟨⟨"a", Except.ok "pw", fun _ => none⟩, 100,
   fun _ => some (.sdmE ⟨.Unknown, "boom", some "exit status 1"⟩),
   fun _ => none, fun _ => []⟩

/-- An empty initial run state. -/
def s0 : AppState := ⟨[], 0, 0, 0, 0, 0, [], []⟩

/-- An environment whose keyring lookup and external login both succeed. -/
def envOk : RetryEnv := ⟨"acc", Except.ok "pw", fun _ => none⟩

/-- An operation that fails classified `Unauthorized` on every call. -/
def execAlwaysUnauthorized : AppState → AppState × Option GoErr :=
  fun t => ({ t with execCalls := t.execCalls + 1 },
    some (.sdmE ⟨.Unauthorized, "You are not authenticated", some "exit status 1"⟩))

/-- An operation that fails classified `InvalidCredentials`. -/
def execInvalidCreds : AppState → AppState × Option GoErr :=
  fun t => ({ t with execCalls := t.execCalls + 1 },
    some (.sdmE ⟨.InvalidCredentials, "access denied", some "exit status 1"⟩))

/-! ### First-match characterisation of the classifier -/

theorem matchErrorCode_of_first {output : String} :
    ∀ (L : List (String × SDMErrorCode)) (i : Nat) (hi : i < L.length),
      containsGo output (L.get ⟨i, hi⟩).1 = true →
      (∀ j (hj : j < i), containsGo output (L.get ⟨j, Nat.lt_trans hj hi⟩).1 = false) →
      matchErrorCode output L = some (L.get ⟨i, hi⟩).2 := by
  intro L
  induction L with
  | nil => intro i hi; exact absurd hi (by simp)
  | cons m rest ih =>
    intro i hi hmatch hfirst
    cases i with
    | zero =>
      simp only [List.get] at hmatch ⊢
      simp [matchErrorCode, hmatch]
    | succ k =>
      have hm0 : containsGo output m.1 = false := by
        have := hfirst 0 (Nat.succ_pos k)
        simpa using this
      simp only [List.get] at hmatch ⊢
      simp only [matchErrorCode, hm0, Bool.false_eq_true, if_false]
      exact ih k (Nat.lt_of_succ_lt_succ hi) hmatch
        (fun j hj => by
          have := hfirst (j + 1) (Nat.succ_lt_succ hj)
          simpa using this)

theorem matchErrorCode_of_none {output : String} :
    ∀ (L : List (String × SDMErrorCode)),
      (∀ m ∈ L, containsGo output m.1 = false) →
      matchErrorCode output L = none := by
  intro L
  induction L with
  | nil => intro _; rfl
  | cons m rest ih =>
    intro h
    have hm : containsGo output m.1 = false := h m (by simp)
    simp only [matchErrorCode, hm, Bool.false_eq_true, if_false]
    exact ih (fun x hx => h x (by simp [hx]))

/-- C2: for every output string and non-nil execution error, `parseSdmError`
returns a discriminated error whose kind is the one associated with the first
matching known pattern substring; if the output contains none of the known
patterns it returns `Unknown` and retains the original output text; for a nil
execution error it returns nil (success is never reclassified). -/
theorem claim_C2 (output : String) (e : String) :
    (∀ i (hi : i < errorMatchers.length),
        containsGo output (errorMatchers.get ⟨i, hi⟩).1 = true →
        (∀ j (hj : j < i),
          containsGo output (errorMatchers.get ⟨j, Nat.lt_trans hj hi⟩).1 = false) →
        parseSdmError output (some e) =
          some (.sdmE ⟨(errorMatchers.get ⟨i, hi⟩).2, output, some e⟩)) ∧
    ((∀ m ∈ errorMatchers, containsGo output m.1 = false) →
        parseSdmError output (some e) = some (.sdmE ⟨.Unknown, output, some e⟩)) ∧
    parseSdmError output none = none := by
  refine ⟨?_, ?_, rfl⟩
  · intro i hi hmatch hfirst
    unfold parseSdmError
    rw [matchErrorCode_of_first errorMatchers i hi hmatch hfirst]
  · intro hnone
    unfold parseSdmError
    rw [matchErrorCode_of_none errorMatchers hnone]

/-- Witness for C2: the first pattern of the table matches the literal output
"You are not authenticated", so the classifier returns `Unauthorized` with the
output retained; and on output matched by no pattern it returns `Unknown`. -/
theorem claim_C2_witness :
    parseSdmError "You are not authenticated" (some "exit status 1") =
      some (.sdmE ⟨.Unauthorized, "You are not authenticated", some "exit status 1"⟩) ∧
    parseSdmError "something odd happened" (some "exit status 1") =
      some (.sdmE ⟨.Unknown, "something odd happened", some "exit status 1"⟩) := by
  constructor
  · exact (claim_C2 "You are not authenticated" "exit status 1").1 0 (by decide)
      (by decide) (fun j hj => absurd hj (Nat.not_lt_zero j))
  · exact (claim_C2 "something odd happened" "exit status 1").2.1 (by decide)

/-! ### Bucket access lemmas -/

theorem bucketGet_put_self (b : Bucket) (k : String) (v : DataSource) :
    bucketGet (bucketPut b k v) k = some v := by
  induction b with
  | nil => simp [bucketPut, bucketGet]
  | cons e t ih =>
    obtain ⟨k', v'⟩ := e
    by_cases h : k = k'
    · subst h; simp [bucketPut, bucketGet]
    · by_cases hlt : k < k'
      · simp [bucketPut, h, hlt, bucketGet]
      · simp [bucketPut, h, hlt, bucketGet, Ne.symm h, ih]

theorem bucketGet_put_ne (b : Bucket) (k : String) (v : DataSource) (n : String)
    (hne : k ≠ n) : bucketGet (bucketPut b k v) n = bucketGet b n := by
  induction b with
  | nil => simp [bucketPut, bucketGet, hne]
  | cons e t ih =>
    obtain ⟨k', v'⟩ := e
    by_cases h : k = k'
    · subst h; simp [bucketPut, bucketGet, hne]
    · by_cases hlt : k < k'
      · simp [bucketPut, h, hlt, bucketGet, hne]
      · simp [bucketPut, h, hlt, bucketGet, ih]

theorem storeOne_get_ne (b : Bucket) (ds : DataSource) (n : String)
    (hne : ds.Name ≠ n) : bucketGet (storeOne b ds) n = bucketGet b n := by
  unfold storeOne
  exact bucketGet_put_ne _ _ _ _ hne

theorem storeList_get_ne (dss : List DataSource) (b : Bucket) (n : String)
    (hne : ∀ d ∈ dss, d.Name ≠ n) :
    bucketGet (storeList b dss) n = bucketGet b n := by
  induction dss generalizing b with
  | nil => rfl
  | cons d t ih =>
    have h1 : bucketGet (storeOne b d) n = bucketGet b n :=
      storeOne_get_ne b d n (hne d (by simp))
    calc bucketGet (storeList (storeOne b d) t) n
        = bucketGet (storeOne b d) n := ih _ (fun x hx => hne x (by simp [hx]))
      _ = bucketGet b n := h1

theorem dbGetBucket_put (db : DB) (name : String) (b : Bucket) :
    dbGetBucket (dbPutBucket db name b) name = (dbGetBucket db name).map (fun _ => b) := by
  induction db with
  | nil => simp [dbPutBucket, dbGetBucket]
  | cons e t ih =>
    obtain ⟨n', b'⟩ := e
    by_cases h : n' = name
    · subst h; simp [dbPutBucket, dbGetBucket]
    · simp [dbPutBucket, dbGetBucket, h, ih]

/-- C9: for every account, calling `StoreServers` with an empty record list
returns success immediately without opening a write transaction: the cache
contents are unchanged (in particular this holds even if the account's bucket
does not exist, evidencing that the early return happens before the
transaction and bucket lookup). -/
theorem claim_C9 (account : String) (db : DB) :
    StoreServers account db [] = (none, db) := by
  simp [StoreServers]

/-- C3: for every account and every record already present in the cache,
re-running `StoreServers` with a record of the same name but changed
descriptive fields preserves the previously stored `LRU` (`lastUsedAt`) value
and replaces only the descriptive fields; a record whose name is absent is
stored as given (records produced by the status parser carry the default
`LRU = 0`, so a new record gets the default value). -/
theorem claim_C3 (account n : String) (db : DB) (b : Bucket)
    (pre post : List DataSource) (ds : DataSource)
    (hb : dbGetBucket db (buildBucketKey account currentDBVersion) = some b)
    (hds : ds.Name = n)
    (hpre : ∀ d ∈ pre, d.Name ≠ n) (hpost : ∀ d ∈ post, d.Name ≠ n) :
    (∀ e, bucketGet b n = some e →
        (StoreServers account db (pre ++ ds :: post)).1 = none ∧
        dsLookup account (StoreServers account db (pre ++ ds :: post)).2 n =
          some { ds with LRU := e.LRU }) ∧
    (bucketGet b n = none →
        (StoreServers account db (pre ++ ds :: post)).1 = none ∧
        dsLookup account (StoreServers account db (pre ++ ds :: post)).2 n =
          some ds) := by
  have hlen : (pre ++ ds :: post).length ≠ 0 := by simp
  have hstore :
      StoreServers account db (pre ++ ds :: post) =
        (none, dbPutBucket db (buildBucketKey account currentDBVersion)
          (storeList b (pre ++ ds :: post))) := by
    simp [StoreServers, hlen, hb]
  have hpreget : bucketGet (storeList b pre) n = bucketGet b n :=
    storeList_get_ne pre b n hpre
  have hsplit : storeList b (pre ++ ds :: post) =
      storeList (storeOne (storeList b pre) ds) post := by
    unfold storeList
    rw [List.foldl_append, List.foldl_cons]
  have hlookup : dsLookup account
      (dbPutBucket db (buildBucketKey account currentDBVersion)
        (storeList b (pre ++ ds :: post))) n =
      bucketGet (storeList b (pre ++ ds :: post)) n := by
    unfold dsLookup
    rw [dbGetBucket_put, hb]
    rfl
  constructor
  · intro e he
    refine ⟨by rw [hstore], ?_⟩
    rw [hstore]
    show dsLookup account (dbPutBucket db (buildBucketKey account currentDBVersion)
      (storeList b (pre ++ ds :: post))) n = _
    rw [hlookup, hsplit, storeList_get_ne post _ n hpost]
    unfold storeOne
    rw [hds, hpreget, he]
    exact bucketGet_put_self _ _ _
  · intro he
    refine ⟨by rw [hstore], ?_⟩
    rw [hstore]
    show dsLookup account (dbPutBucket db (buildBucketKey account currentDBVersion)
      (storeList b (pre ++ ds :: post))) n = _
    rw [hlookup, hsplit, storeList_get_ne post _ n hpost]
    unfold storeOne
    rw [hds, hpreget, he]
    exact bucketGet_put_self _ _ _

/-- Witness for C3: a cache holding record "foo" with `LRU = 50`; re-syncing
"foo" with a changed status and `LRU = 0` keeps `LRU = 50` and takes the new
status, while a genuinely new record "bar" is stored as given. -/
theorem claim_C3_witness :
    (StoreServers "a" [("a:datasource:v2",
        [("foo", ⟨"foo", "connected", "addr", "postgres", "", "", 50⟩)])]
        [⟨"foo", "disconnected", "addr", "postgres", "", "", 0⟩]).1 = none ∧
    dsLookup "a" (StoreServers "a" [("a:datasource:v2",
        [("foo", ⟨"foo", "connected", "addr", "postgres", "", "", 50⟩)])]
        [⟨"foo", "disconnected", "addr", "postgres", "", "", 0⟩]).2 "foo" =
      some ⟨"foo", "disconnected", "addr", "postgres", "", "", 50⟩ := by
  exact (claim_C3 "a" "foo"
      [("a:datasource:v2", [("foo", ⟨"foo", "connected", "addr", "postgres", "", "", 50⟩)])]
      [("foo", ⟨"foo", "connected", "addr", "postgres", "", "", 50⟩)]
      [] [] ⟨"foo", "disconnected", "addr", "postgres", "", "", 0⟩
      (by rfl) (by rfl) (by simp) (by simp)).1
      ⟨"foo", "connected", "addr", "postgres", "", "", 50⟩ (by rfl)

/-! ### Wipe -/

theorem foldl_deleteBucket_ne (names : List String) (e : String × Bucket) (t : DB)
    (hne : ∀ m ∈ names, e.1 ≠ m) :
    names.foldl deleteBucket (e :: t) = e :: names.foldl deleteBucket t := by
  induction names generalizing t with
  | nil => rfl
  | cons m rest ih =>
    have h1 : deleteBucket (e :: t) m = e :: deleteBucket t m := by
      obtain ⟨n, b⟩ := e
      have : n ≠ m := hne m (by simp)
      simp [deleteBucket, this]
    rw [List.foldl_cons, h1, List.foldl_cons]
    exact ih _ (fun x hx => hne x (by simp [hx]))

/-- C10: `Wipe` deletes exactly those cache buckets whose names begin with the
current account identifier as a string prefix (survivors keep their order);
consequently, for two accounts where one identifier is a proper prefix of the
other ("a@x.com" and "a@x.com.uy"), wiping the shorter account also deletes
every namespace of the longer one. -/
theorem claim_C10 :
    (∀ (account : String) (db : DB),
        Wipe account db = db.filter (fun e => !hasPrefixGo e.1 account)) ∧
    Wipe "a@x.com"
        [(buildBucketKey "a@x.com" currentDBVersion, []),
         (buildBucketKey "a@x.com.uy" currentDBVersion, [])] = [] := by
  have hgen : ∀ (account : String) (db : DB),
      Wipe account db = db.filter (fun e => !hasPrefixGo e.1 account) := by
    intro account db
    induction db with
    | nil => rfl
    | cons e t ih =>
      obtain ⟨n, b⟩ := e
      by_cases h : hasPrefixGo n account = true
      · have hdel : deleteBucket ((n, b) :: t) n = t := by simp [deleteBucket]
        unfold Wipe
        simp only [List.filter_cons, h, if_pos trivial, List.map_cons, List.foldl_cons]
        rw [hdel]
        unfold Wipe at ih
        simpa [h] using ih
      · have hne : ∀ m ∈ (t.filter (fun e => hasPrefixGo e.1 account)).map (·.1),
            n ≠ m := by
          intro m hm
          simp only [List.mem_map, List.mem_filter] at hm
          obtain ⟨x, ⟨_, hx⟩, rfl⟩ := hm
          intro hcontra
          rw [← hcontra] at hx
          exact h hx
        unfold Wipe
        simp only [List.filter_cons, h]
        simp only [Bool.false_eq_true, if_false]
        rw [foldl_deleteBucket_ne _ (n, b) t hne]
        unfold Wipe at ih
        simp [h, ih]
  refine ⟨hgen, ?_⟩
  rw [hgen]
  rfl

/-! ### Retry/recovery controller claims -/

/-- C1: for every operation closure that fails classified `Unauthorized` on
every call (each call bumping the call counter and touching neither login nor
secret-deletion), when password retrieval and the external login succeed,
`RetryCommand` invokes login exactly once, invokes the operation exactly
twice, and returns a terminal failure; the retried attempt's result is
returned as-is (`RetryCommand … = exec t`), so the second `Unauthorized`
failure never triggers a second re-authentication cycle. -/
theorem claim_C1 (env : RetryEnv) (exec : AppState → AppState × Option GoErr)
    (s : AppState) (pw : String)
    (hexec : ∀ t, ∃ u msg et, exec t = (u, some (.sdmE ⟨.Unauthorized, msg, et⟩)) ∧
        u.execCalls = t.execCalls + 1 ∧ u.loginCalls = t.loginCalls ∧
        u.deleteSecretCalls = t.deleteSecretCalls)
    (hpw : env.passwordResult = .ok pw)
    (hlogin : env.loginResult pw = none) :
    ∃ t, RetryCommand env exec s = exec t ∧
      t.execCalls = s.execCalls + 1 ∧
      t.loginCalls = s.loginCalls + 1 ∧
      t.deleteSecretCalls = s.deleteSecretCalls ∧
      (RetryCommand env exec s).1.execCalls = s.execCalls + 2 ∧
      (RetryCommand env exec s).1.loginCalls = s.loginCalls + 1 ∧
      (RetryCommand env exec s).1.deleteSecretCalls = s.deleteSecretCalls ∧
      ∃ msg et, (RetryCommand env exec s).2 =
        some (.sdmE ⟨.Unauthorized, msg, et⟩) := by
  obtain ⟨u₁, msg₁, et₁, he₁, hu1, hu2, hu3⟩ := hexec s
  have hstep : RetryCommand env exec s =
      exec { (notifyS u₁ "🔐 Authenticating..." "") with
        loginCalls := (notifyS u₁ "🔐 Authenticating..." "").loginCalls + 1 } := by
    rw [RetryCommand, he₁]
    show handleUnauthorized env exec u₁ = _
    simp only [handleUnauthorized, hpw, loginS, hlogin]
  set t := { (notifyS u₁ "🔐 Authenticating..." "") with
    loginCalls := (notifyS u₁ "🔐 Authenticating..." "").loginCalls + 1 } with ht
  obtain ⟨u₂, msg₂, et₂, he₂, hv1, hv2, hv3⟩ := hexec t
  have htexec : t.execCalls = s.execCalls + 1 := by simp [ht, notifyS, hu1]
  have htlogin : t.loginCalls = s.loginCalls + 1 := by simp [ht, notifyS, hu2]
  have htdel : t.deleteSecretCalls = s.deleteSecretCalls := by simp [ht, notifyS, hu3]
  refine ⟨t, hstep, htexec, htlogin, htdel, ?_, ?_, ?_, ?_⟩
  · rw [hstep, he₂]
    show u₂.execCalls = s.execCalls + 2
    rw [hv1, htexec]
  · rw [hstep, he₂]
    show u₂.loginCalls = s.loginCalls + 1
    rw [hv2, htlogin]
  · rw [hstep, he₂]
    show u₂.deleteSecretCalls = s.deleteSecretCalls
    rw [hv3, htdel]
  · rw [hstep, he₂]
    exact ⟨msg₂, et₂, rfl⟩

/-- Witness for C1: a concrete operation that always fails "You are not
authenticated" under an environment whose keyring and login succeed. -/
theorem claim_C1_witness :
    ∃ t : AppState, RetryCommand envOk execAlwaysUnauthorized s0 =
        execAlwaysUnauthorized t ∧
      t.execCalls = s0.execCalls + 1 ∧
      t.loginCalls = s0.loginCalls + 1 ∧
      t.deleteSecretCalls = s0.deleteSecretCalls ∧
      (RetryCommand envOk execAlwaysUnauthorized s0).1.execCalls = s0.execCalls + 2 ∧
      (RetryCommand envOk execAlwaysUnauthorized s0).1.loginCalls = s0.loginCalls + 1 ∧
      (RetryCommand envOk execAlwaysUnauthorized s0).1.deleteSecretCalls =
        s0.deleteSecretCalls ∧
      ∃ msg et, (RetryCommand envOk execAlwaysUnauthorized s0).2 =
        some (.sdmE ⟨.Unauthorized, msg, et⟩) :=
  claim_C1 envOk execAlwaysUnauthorized s0 "pw"
    (fun t => ⟨{ t with execCalls := t.execCalls + 1 },
      "You are not authenticated", some "exit status 1", rfl, rfl, rfl, rfl⟩)
    rfl rfl

/-- C6: for every operation closure that fails classified `InvalidCredentials`
on its (single) call, `RetryCommand` deletes the stored secret exactly once,
never invokes the operation a second time, never invokes login, and returns a
terminal error wrapping the `InvalidCredentials`-classified error. -/
theorem claim_C6 (env : RetryEnv) (exec : AppState → AppState × Option GoErr)
    (s : AppState) (u : AppState) (msg : String) (et : Option String)
    (hexec : exec s = (u, some (.sdmE ⟨.InvalidCredentials, msg, et⟩)))
    (hu1 : u.execCalls = s.execCalls + 1) (hu2 : u.loginCalls = s.loginCalls)
    (hu3 : u.deleteSecretCalls = s.deleteSecretCalls) :
    (RetryCommand env exec s).1.deleteSecretCalls = s.deleteSecretCalls + 1 ∧
    (RetryCommand env exec s).1.execCalls = s.execCalls + 1 ∧
    (RetryCommand env exec s).1.loginCalls = s.loginCalls ∧
    (RetryCommand env exec s).2 =
      some (.wrapped "invalid credentials" (.sdmE ⟨.InvalidCredentials, msg, et⟩)) := by
  have hstep : RetryCommand env exec s =
      handleInvalidCredentials ⟨.InvalidCredentials, msg, et⟩ u := by
    rw [RetryCommand, hexec]
    rfl
  rw [hstep]
  refine ⟨?_, ?_, ?_, rfl⟩
  · show (deleteSecretS (notifyS u "🔐 Authentication error" "Invalid credentials")).deleteSecretCalls = _
    simp [deleteSecretS, notifyS, hu3]
  · show (deleteSecretS (notifyS u "🔐 Authentication error" "Invalid credentials")).execCalls = _
    simp [deleteSecretS, notifyS, hu1]
  · show (deleteSecretS (notifyS u "🔐 Authentication error" "Invalid credentials")).loginCalls = _
    simp [deleteSecretS, notifyS, hu2]

/-- Witness for C6: a concrete operation failing "access denied" classified
`InvalidCredentials`. -/
theorem claim_C6_witness :
    (RetryCommand envOk execInvalidCreds s0).1.deleteSecretCalls =
      s0.deleteSecretCalls + 1 ∧
    (RetryCommand envOk execInvalidCreds s0).1.execCalls = s0.execCalls + 1 ∧
    (RetryCommand envOk execInvalidCreds s0).1.loginCalls = s0.loginCalls ∧
    (RetryCommand envOk execInvalidCreds s0).2 =
      some (.wrapped "invalid credentials"
        (.sdmE ⟨.InvalidCredentials, "access denied", some "exit status 1"⟩)) :=
  claim_C6 envOk execInvalidCreds s0
    ⟨[], 0 + 1, 0, 0, 0, 0, [], []⟩ "access denied" (some "exit status 1")
    rfl rfl rfl rfl

/-! ### Connect flow claims -/

/-- C7: for every name absent from the cache, the connect flow performs zero
invocations of the wrapped external tool, reports "Resource not found" to the
user, and leaves the cache completely unchanged (the final state is the
initial one with only the notification appended, and the command completes
with a nil error). -/
theorem claim_C7 (env : ConnEnv) (s : AppState) (selectedEntry name f2 : String)
    (rest : List String)
    (hfields : fieldsGo selectedEntry = name :: f2 :: rest)
    (hname : name ≠ "")
    (habsent : dsLookup env.retry.account s.db name = none) :
    handleSelectedEntry env selectedEntry s =
      (notifyS s "🔐 Resource not found" "", none) := by
  have hget : ∃ e, GetDatasource env.retry.account s.db name = .error e := by
    unfold GetDatasource
    rw [if_neg hname]
    unfold dsLookup at habsent
    cases hdb : dbGetBucket s.db (buildBucketKey env.retry.account currentDBVersion) with
    | none => exact ⟨_, rfl⟩
    | some b =>
      rw [hdb] at habsent
      simp only [Option.some_bind] at habsent
      exact ⟨GoErr.simple "datasource not found", by simp [habsent]⟩
  obtain ⟨e, hge⟩ := hget
  have hlen : ¬ ((fieldsGo selectedEntry).length < 2) := by
    rw [hfields]; simp
  have hhead : (fieldsGo selectedEntry).headD "" = name := by
    rw [hfields]; rfl
  unfold handleSelectedEntry
  rw [if_neg hlen, hhead, if_neg hname, hge]

/-- Witness for C7: selecting "bar" (absent from a cache holding only "foo")
only appends the "Resource not found" notification. -/
theorem claim_C7_witness :
    handleSelectedEntry envConnFail "bar x" sFoo =
      (notifyS sFoo "🔐 Resource not found" "", none) :=
  claim_C7 envConnFail sFoo "bar x" "bar" "x" [] (by rfl) (by decide) (by rfl)

/-- Counterexample to C4 as stated: in the dmenu connect flow the last-used
timestamp is written *before* the external connect is invoked, so a failed
connect attempt does change `lastUsedAt`. Concretely: the cache holds "foo"
with `lastUsedAt = 5`; the external connect always fails (classified
`Unknown`); running the flow at time 100 performs exactly one failed connect
attempt, returns a terminal error, and yet the stored record's `lastUsedAt`
has become 100. -/
theorem claim_C4_counterexample :
    (handleSelectedEntry envConnFail "foo addr" sFoo).2.isSome = true ∧
    (handleSelectedEntry envConnFail "foo addr" sFoo).1.connectCalls = 1 ∧
    dsLookup "a" sFoo.db "foo" = some dsFoo ∧
    dsFoo.LRU = 5 ∧
    dsLookup "a" (handleSelectedEntry envConnFail "foo addr" sFoo).1.db "foo" =
      some { dsFoo with LRU := 100 } := by
  refine ⟨rfl, rfl, rfl, rfl, rfl⟩

/-- C4 (amended): a record's `lastUsedAt` is written as part of *every*
connect attempt on a cache-resident record — it is set to the current time
immediately before the external connect operation is invoked — including
attempts whose connect subsequently fails; it is not the success of the
connect that triggers the write. (Operations other than a connect attempt
preserve it: re-sync preservation is claim C3.) Stated for an environment
whose external connect fails with an unclassifiable error: the flow returns a
terminal failure, performed exactly one connect attempt, and the record's
`lastUsedAt` nevertheless equals the current time. -/
theorem claim_C4 (env : ConnEnv) (s : AppState) (selectedEntry name f2 : String)
    (rest : List String) (b : Bucket) (ds : DataSource)
    (hfields : fieldsGo selectedEntry = name :: f2 :: rest)
    (hname : name ≠ "")
    (hb : dbGetBucket s.db (buildBucketKey env.retry.account currentDBVersion) = some b)
    (hds : bucketGet b name = some ds)
    (hdsn : ds.Name = name)
    (hconnect : ∀ i, ∃ m t, env.connectResult i = some (.sdmE ⟨.Unknown, m, t⟩)) :
    (handleSelectedEntry env selectedEntry s).2.isSome = true ∧
    (handleSelectedEntry env selectedEntry s).1.connectCalls = s.connectCalls + 1 ∧
    dsLookup env.retry.account (handleSelectedEntry env selectedEntry s).1.db name =
      some { ds with LRU := env.now } := by
  have hlen : ¬ ((fieldsGo selectedEntry).length < 2) := by
    rw [hfields]; simp
  have hhead : (fieldsGo selectedEntry).headD "" = name := by
    rw [hfields]; rfl
  have hgd : GetDatasource env.retry.account s.db name = .ok ds := by
    unfold GetDatasource
    rw [if_neg hname, hb]
    simp [hds]
  have hup : UpdateLastUsed env.retry.account env.now s.db ds =
      (none, dbPutBucket s.db (buildBucketKey env.retry.account currentDBVersion)
        (bucketPut b name { ds with LRU := env.now })) := by
    unfold UpdateLastUsed
    rw [hdsn, if_neg hname]
    simp [hb]
  obtain ⟨m, t, hcr⟩ := hconnect s.connectCalls
  have hclo : connectClosure env ds s =
      ({ s with
          db := dbPutBucket s.db (buildBucketKey env.retry.account currentDBVersion)
            (bucketPut b name { ds with LRU := env.now }),
          connectCalls := s.connectCalls + 1 },
        some (.sdmE ⟨.Unknown, m, t⟩)) := by
    unfold connectClosure sdmConnect
    simp only [hup, hcr]
  have hrc : RetryCommand env.retry (connectClosure env ds) s =
      (notifyS { s with
          db := dbPutBucket s.db (buildBucketKey env.retry.account currentDBVersion)
            (bucketPut b name { ds with LRU := env.now }),
          connectCalls := s.connectCalls + 1 } "🔐 Error"
          (sdmErrString ⟨.Unknown, m, t⟩),
        some (.wrapped "command error" (.sdmE ⟨.Unknown, m, t⟩))) := by
    rw [RetryCommand, hclo]
    rfl
  have hrun : handleSelectedEntry env selectedEntry s =
      (notifyS { s with
          db := dbPutBucket s.db (buildBucketKey env.retry.account currentDBVersion)
            (bucketPut b name { ds with LRU := env.now }),
          connectCalls := s.connectCalls + 1 } "🔐 Error"
          (sdmErrString ⟨.Unknown, m, t⟩),
        some (.wrapped "command error" (.sdmE ⟨.Unknown, m, t⟩))) := by
    unfold handleSelectedEntry
    rw [if_neg hlen, hhead, if_neg hname, hgd]
    simp only [hrc]
  rw [hrun]
  refine ⟨rfl, by simp [notifyS], ?_⟩
  show dsLookup env.retry.account
    (dbPutBucket s.db (buildBucketKey env.retry.account currentDBVersion)
      (bucketPut b name { ds with LRU := env.now })) name = _
  unfold dsLookup
  rw [dbGetBucket_put, hb]
  show bucketGet (bucketPut b name { ds with LRU := env.now }) name = _
  rw [bucketGet_put_self]

/-- Witness for C4 (amended): the concrete failing-connect scenario of the
counterexample satisfies the amended statement with `now = 100`. -/
theorem claim_C4_witness :
    (handleSelectedEntry envConnFail "foo addr" sFoo).2.isSome = true ∧
    (handleSelectedEntry envConnFail "foo addr" sFoo).1.connectCalls =
      sFoo.connectCalls + 1 ∧
    dsLookup "a" (handleSelectedEntry envConnFail "foo addr" sFoo).1.db "foo" =
      some { dsFoo with LRU := 100 } :=
  claim_C4 envConnFail sFoo "foo addr" "foo" "addr" [] [("foo", dsFoo)] dsFoo
    (by rfl) (by decide) (by rfl) (by rfl) (by rfl)
    (fun i => ⟨"boom", some "exit status 1", rfl⟩)

/-! ### Blacklist claims -/

theorem foldl_blacklist_filter (P : DataSource → Bool) (dss : List DataSource) :
    ∀ acc, dss.foldl (fun acc ds => if P ds then acc else acc ++ [ds]) acc =
      acc ++ dss.filter (fun ds => !P ds) := by
  induction dss with
  | nil => intro acc; simp
  | cons d t ih =>
    intro acc
    by_cases h : P d
    · simp [List.foldl_cons, h, ih]
    · simp [List.foldl_cons, h, ih]

theorem applyBlacklist_eq_filter (engine : Engine) (patterns : List String)
    (dss : List DataSource) :
    applyBlacklist engine patterns dss =
      dss.filter (fun ds => !blacklistedGo engine ds.Name patterns) := by
  by_cases hp : patterns.isEmpty
  · have hnil : patterns = [] := by
      cases patterns with
      | nil => rfl
      | cons q rest => simp [List.isEmpty] at hp
    subst hnil
    simp [applyBlacklist, blacklistedGo]
  · unfold applyBlacklist
    rw [if_neg hp, foldl_blacklist_filter]
    simp

/-- C8: for every record list and every pattern set, `applyBlacklist` removes
exactly those records whose name matches at least one pattern under the host
engine and preserves the relative order of survivors (the filter
characterisation); a record is blacklisted iff some pattern matches it; an
invalid (non-compiling) pattern — which the host engine reports as
`(false, err)` on every input — never removes a record and never causes the
listing to fail (its presence does not change the result); and the pattern
".*prod.*" (which under the host engine matches exactly the names containing
"prod") excludes every record whose name contains "prod" and keeps all
others in order. -/
theorem claim_C8 (engine : Engine) (patterns : List String)
    (dss : List DataSource) (p : String) :
    applyBlacklist engine patterns dss =
      dss.filter (fun ds => !blacklistedGo engine ds.Name patterns) ∧
    (∀ name, blacklistedGo engine name patterns =
      patterns.any (fun q => (engine q name).1)) ∧
    ((∀ n, (engine p n).1 = false ∧ (engine p n).2.isSome) →
      applyBlacklist engine (p :: patterns) dss = applyBlacklist engine patterns dss) ∧
    ((∀ n, engine ".*prod.*" n = (containsGo n "prod", none)) →
      applyBlacklist engine [".*prod.*"] dss =
        dss.filter (fun ds => !containsGo ds.Name "prod")) := by
  refine ⟨applyBlacklist_eq_filter engine patterns dss, ?_, ?_, ?_⟩
  · intro name
    induction patterns with
    | nil => rfl
    | cons q rest ih =>
      cases h : (engine q name).1 with
      | false => simp [blacklistedGo, h, ih]
      | true => simp [blacklistedGo, h]
  · intro hinv
    have hbl : ∀ name, blacklistedGo engine name (p :: patterns) =
        blacklistedGo engine name patterns := by
      intro name
      simp [blacklistedGo, (hinv name).1]
    rw [applyBlacklist_eq_filter, applyBlacklist_eq_filter]
    exact List.filter_congr (fun ds _ => by rw [hbl])
  · intro hprod
    rw [applyBlacklist_eq_filter]
    refine List.filter_congr (fun ds _ => ?_)
    simp [blacklistedGo, hprod ds.Name]

/-- Witness for C8: with records "db-prod-1" and "db-dev", the pattern
".*prod.*" keeps exactly "db-dev", and adding the non-compiling pattern
"[invalid" changes nothing. -/
theorem claim_C8_witness :
    applyBlacklist engineProd [".*prod.*"] [dsProd, dsDev] =
      [dsProd, dsDev].filter (fun ds => !containsGo ds.Name "prod") ∧
    [dsProd, dsDev].filter (fun ds => !containsGo ds.Name "prod") = [dsDev] ∧
    applyBlacklist engineProd ["[invalid"] [dsProd, dsDev] =
      applyBlacklist engineProd [] [dsProd, dsDev] := by
  refine ⟨(claim_C8 engineProd [] [dsProd, dsDev] ".*prod.*").2.2.2
      (fun n => by simp [engineProd]), by decide, ?_⟩
  exact (claim_C8 engineProd [] [dsProd, dsDev] "[invalid").2.2.1
    (fun n => by simp [engineProd])

/-! ### Recency sort claims -/

theorem cmpGo_le_zero_iff (a b : DataSource)
    (ha0 : 0 ≤ a.LRU) (ha1 : a.LRU < 2 ^ 63)
    (hb0 : 0 ≤ b.LRU) (hb1 : b.LRU < 2 ^ 63) :
    cmpGo a b ≤ 0 ↔ b.LRU ≤ a.LRU := by
  unfold cmpGo wrap64
  have hmod : (b.LRU - a.LRU + 2 ^ 63) % 2 ^ 64 = b.LRU - a.LRU + 2 ^ 63 :=
    Int.emod_eq_of_lt (by omega) (by omega)
  rw [hmod]
  omega

theorem sortedByCmp_descByLRU :
    ∀ (l : List DataSource), (∀ ds ∈ l, 0 ≤ ds.LRU ∧ ds.LRU < 2 ^ 63) →
      sortedByCmp cmpGo l = true → descByLRU l = true
  | [], _, _ => rfl
  | [_], _, _ => rfl
  | a :: b :: t, hbound, hsort => by
    rw [sortedByCmp, Bool.and_eq_true, decide_eq_true_eq] at hsort
    rw [descByLRU, Bool.and_eq_true, decide_eq_true_eq]
    have ha := hbound a (by simp)
    have hb := hbound b (by simp)
    exact ⟨(cmpGo_le_zero_iff a b ha.1 ha.2 hb.1 hb.2).mp hsort.1,
      sortedByCmp_descByLRU (b :: t)
        (fun ds hds => hbound ds (List.mem_cons_of_mem a hds)) hsort.2⟩

/-- Counterexample to C5 as stated: the sort in `GetSortedDataSources` is
`slices.SortFunc`, whose contract sorts by the comparator but explicitly does
*not* guarantee stability (the code does not use `slices.SortStableFunc`).
Hence tie order is not a property the code provides: for the cached records
[dsA, dsB] (both `lastUsedAt = 0`, cache iteration order "a" before "b"),
the output [dsB, dsA] satisfies the sort call's contract while breaking the
claimed preservation of cache order among equal timestamps. -/
theorem claim_C5_counterexample :
    getSortedRel engineProd [] [dsA, dsB] [dsB, dsA] ∧
    ¬ tiesKeepOrder [dsA, dsB] [dsB, dsA] := by
  constructor
  · exact ⟨by decide, by decide⟩
  · intro h
    exact absurd (h 0) (by decide)

/-- C5 (amended): for every list of cached records (with `lastUsedAt` in the
`int64`-timestamp range, so the comparator's subtraction does not wrap),
every admissible listing output is sorted descending by `lastUsedAt`
(most-recently-used first); records with equal `lastUsedAt` may appear in any
order, since `slices.SortFunc` is not guaranteed to be stable; in particular,
for records with the distinct `lastUsedAt` values [0, 50, 20] the output is
uniquely determined and equals the order [50, 20, 0]. -/
theorem claim_C5 :
    (∀ (engine : Engine) (patterns : List String) (cached out : List DataSource),
        (∀ ds ∈ cached, 0 ≤ ds.LRU ∧ ds.LRU < 2 ^ 63) →
        getSortedRel engine patterns cached out →
        descByLRU out = true) ∧
    (∀ (engine : Engine) (out : List DataSource),
        getSortedRel engine [] [ds0, ds50, ds20] out → out = [ds50, ds20, ds0]) := by
  constructor
  · intro engine patterns cached out hbound hrel
    obtain ⟨hperm, hsort⟩ := hrel
    refine sortedByCmp_descByLRU out ?_ hsort
    intro ds hds
    have hmem : ds ∈ applyBlacklist engine patterns cached := hperm.subset hds
    rw [applyBlacklist_eq_filter] at hmem
    exact hbound ds (List.mem_of_mem_filter hmem)
  · intro engine out hrel
    obtain ⟨hperm, hsort⟩ := hrel
    have hfiltered : applyBlacklist engine [] [ds0, ds50, ds20] = [ds0, ds50, ds20] := rfl
    rw [hfiltered] at hperm
    have hmem : out ∈ ([ds0, ds50, ds20]).permutations' :=
      List.mem_permutations'.mpr hperm
    have hpl : ([ds0, ds50, ds20]).permutations' =
        [[ds0, ds50, ds20], [ds50, ds0, ds20], [ds50, ds20, ds0],
         [ds0, ds20, ds50], [ds20, ds0, ds50], [ds20, ds50, ds0]] := by decide
    rw [hpl] at hmem
    simp only [List.mem_cons, List.not_mem_nil, or_false] at hmem
    rcases hmem with h | h | h | h | h | h <;> subst h <;>
      first
        | rfl
        | (exfalso; revert hsort; decide)

/-- Witness for C5 (amended): the concrete output [50, 20, 0] satisfies the
sort contract for cached records with `lastUsedAt` [0, 50, 20], is descending
by `lastUsedAt`, and is the output the uniqueness part forces. -/
theorem claim_C5_witness :
    getSortedRel engineProd [] [ds0, ds50, ds20] [ds50, ds20, ds0] ∧
    descByLRU [ds50, ds20, ds0] = true ∧
    [ds50, ds20, ds0] = [ds50, ds20, ds0] :=
  ⟨⟨by decide, by decide⟩,
   claim_C5.1 engineProd [] [ds0, ds50, ds20] [ds50, ds20, ds0]
     (by decide) ⟨by decide, by decide⟩,
   claim_C5.2 engineProd [ds50, ds20, ds0] ⟨by decide, by decide⟩⟩

end SdmUI
